import Mathlib

/-!
# Verification of the BTCAutoTrader core (`coinbase.py`)

A shallow embedding of the trading core of `coinbase.py`:

* `EMA` — the inner `EMA(N, prices)` helper of `CoinbaseTrade.GetEMAs`;
* `GetEMAs` — candle-history processing (reverse, last timestamp, two EMAs);
* `decide` — the crossover decision of `CoinbaseTrade.Trade`;
* `Sell` / `Buy` / `Transaction` — order construction and execution, with
  the gateway's responses passed in as explicit data;
* `Trade` — the per-cycle function (fresh-sample retry loop, decision,
  dispatch, returned signal state);
* `startCycle` / `initLastTime` — the `Start` loop's per-iteration
  exception handling and the INIT freshness adjustment.

Remote calls are modelled by passing the gateway's responses as explicit
arguments; a Python exception that escapes a function is modelled by an
`Option`-valued result (`none` = the call raised).  Prices, balances and
wall-clock values are rationals; candle timestamps are integers.
-/

namespace BTCAutoTrader

/-- Constant `DATA_DELAY = 300` from `coinbase.py`. -/
def DATA_DELAY : ℚ := 300

/-! ## SignalEngine: `EMA` and `GetEMAs` -/

/-- One step of the EMA loop body: `res = prices[i] * k + res * (1 - k)`. -/
def emaStep (k : ℚ) (res price : ℚ) : ℚ :=
  price * k + res * (1 - k)

/-- The inner `EMA(N, prices)` of `CoinbaseTrade.GetEMAs`:
`res = prices[0]; k = 2/(N+1); for i in 1..len-1: res = prices[i]*k + res*(1-k)`.
On an empty list the Python code raises `IndexError` at `prices[0]`,
modelled by `none`. -/
def EMA (N : ℕ) (prices : List ℚ) : Option ℚ :=
  match prices with
  | [] => none
  | p :: rest => some (rest.foldl (emaStep (2 / (N + 1))) p)

/-- The spec's closed-form recurrence, indexed by position:
`ema[0] = close[0]`, `ema[i] = close[i] * k + ema[i-1] * (1 - k)` with
`k = 2/(N+1)`. -/
def emaClosedForm (N : ℕ) (close : ℕ → ℚ) : ℕ → ℚ
  | 0 => close 0
  | n + 1 =>
      close (n + 1) * (2 / (N + 1)) + emaClosedForm N close n * (1 - 2 / (N + 1))

/-- One candle of the Coinbase response `[time, low, high, open, close, volume]`. -/
structure Candle where
  time : ℤ
  low : ℚ
  high : ℚ
  openP : ℚ
  close : ℚ
  volume : ℚ
  deriving DecidableEq, Repr

/-- Function `CoinbaseTrade.GetEMAs`: the gateway returns candles most-recent-first
(`history_desc`); the code reverses them (`[::-1]`), takes `history[-1][0]`
as `last_time` (raising `IndexError` on an empty history, modelled by
`none`), extracts closing prices (`entry[4]`) and computes both EMAs. -/
def GetEMAs (history_desc : List Candle) : Option (ℤ × ℚ × ℚ) :=
  let history := history_desc.reverse
  match history.getLast? with
  | none => none
  | some last_entry =>
      let prices := history.map Candle.close
      match EMA 12 prices, EMA 26 prices with
      | some e12, some e26 => some (last_entry.time, e12, e26)
      | _, _ => none

/-! ## CrossoverDetector: the decision of `CoinbaseTrade.Trade` -/

/-- The `Decision` enumeration of the spec. -/
inductive Decision where
  | BUY
  | SELL
  | HOLD
  deriving DecidableEq, Repr

/-- Structure `SignalState` from the spec: the carried
`(last_time, last_ema12, last_ema26)` triple; `fast_ema` is EMA-12 and
`slow_ema` is EMA-26. -/
structure SignalState where
  last_time : ℤ
  fast_ema : ℚ
  slow_ema : ℚ
  deriving DecidableEq, Repr

/-- The decision branch of `CoinbaseTrade.Trade` (lines 146–152):
`if (new_ema26 - new_ema12) * (last_ema26 - last_ema12) <= 0:` then
`Sell` when `new_ema26 > new_ema12` else `Buy`; otherwise `Hold`. -/
def decide (prev curr : SignalState) : Decision :=
  if (curr.slow_ema - curr.fast_ema) * (prev.slow_ema - prev.fast_ema) ≤ 0 then
    if curr.slow_ema > curr.fast_ema then Decision.SELL else Decision.BUY
  else
    Decision.HOLD

/-! ## Decimal formatting

`'%.nf' % x` formats with round-to-nearest, ties-to-even (printf
semantics); `int(x)` truncates toward zero.  We model the formatted
amount strings by their digit content: an integer scaled by `10 ^ n`. -/

/-- Python `int(...)` on a rational: truncation toward zero
(`num.tdiv den` is T-division). -/
def pyInt (q : ℚ) : ℤ :=
  q.num.tdiv q.den

/-- The floor of a rational, computed directly so that concrete values
reduce (`num.fdiv den` is floor division); equal to `⌊q⌋`
(`ratFloor_eq_floor` below). -/
def ratFloor (q : ℚ) : ℤ :=
  q.num.fdiv q.den

/-- Round to the nearest integer, ties to even (the rounding `printf`
`%f` applies to the scaled value). -/
def roundHalfEven (q : ℚ) : ℤ :=
  if q - ratFloor q < 1 / 2 then ratFloor q
  else if 1 / 2 < q - ratFloor q then ratFloor q + 1
  else if ratFloor q % 2 = 0 then ratFloor q else ratFloor q + 1

/-- The scaled integer printed by `'%.nf' % q`: `q` rounded at `n`
decimal places, times `10 ^ n`. -/
def fmtScaled (n : ℕ) (q : ℚ) : ℤ :=
  roundHalfEven (q * 10 ^ n)

/-! ## Accounts and order execution -/

/-- One entry of the gateway's `accounts` response, with its `balance`
already parsed as a number (`float(account['balance'])`). -/
structure RawAccount where
  currency : String
  balance : ℚ
  deriving DecidableEq, Repr

/-- Order side. -/
inductive Side where
  | buy
  | sell
  deriving DecidableEq, Repr

/-- The report title `side.upper()`. -/
def Side.title : Side → String
  | .buy => "BUY"
  | .sell => "SELL"

/-- A line of an emitted report, identified by its content rather than
its formatted text.  Balance lines carry the scaled digits of
`'USD: %.2f'` / `'BTC: %.8f'`. -/
inductive Line where
  | buyDesc (fundsCents : ℤ)
  | sellDesc (sizeSat : ℤ)
  | tradeId (s : String)
  | price (s : String)
  | fee (s : String)
  | usdBalance (cents : ℤ)
  | btcBalance (sat : ℤ)
  | holdNotice
  deriving DecidableEq, Repr

/-- An emitted report: a `logging.error` line or a `PrintContentBlock`. -/
inductive Report where
  | errorLog (side : Side) (status : ℤ) (msg : String)
  | contentBlock (title : String) (contents : List Line)
  deriving DecidableEq, Repr

/-- Function `CoinbaseTrade.GetAccountInfo`: scans the account list, keeping the
last `USD` and last `BTC` entries (the loop has no `break`); if either
is missing, the Python code raises an unbound-local error at the
`return`, modelled by `none`.  On success it formats the balances with
`'%.2f'` and `'%.8f'`. -/
def GetAccountInfo (accounts : List RawAccount) : Option (List Line) :=
  match (accounts.filter (fun a => a.currency == "USD")).getLast?,
        (accounts.filter (fun a => a.currency == "BTC")).getLast? with
  | some u, some b =>
      some [Line.usdBalance (fmtScaled 2 u.balance),
            Line.btcBalance (fmtScaled 8 b.balance)]
  | _, _ => none

/-- The `size` string of `CoinbaseTrade.Sell`, scaled by `10 ^ 8`:
`'%.8f' % float(account['balance'])`. -/
def sellSize (btc_balance : ℚ) : ℤ :=
  fmtScaled 8 btc_balance

/-- The `funds` string of `CoinbaseTrade.Buy`, scaled by `10 ^ 2`:
`'%.2f' % (int(float(account['balance']) * 100) / 100)`. -/
def buyFunds (usd_balance : ℚ) : ℤ :=
  fmtScaled 2 ((pyInt (usd_balance * 100) : ℚ) / 100)

/-- The `params` of a market order: the side and the scaled amount
(`size` × `10^8` for a sell, `funds` × `10^2` for a buy); the product is
always `BTC-USD` and the type always `market`. -/
structure OrderParams where
  side : Side
  amount : ℤ
  deriving DecidableEq, Repr

/-- Order construction of `CoinbaseTrade.Sell`: the first `BTC` account
(the loop `break`s on the first match) supplies the balance; with no
`BTC` entry the Python code raises an unbound-local error at `params`,
modelled by `none`. -/
def SellOrder (accounts : List RawAccount) : Option OrderParams :=
  (accounts.find? (fun a => a.currency == "BTC")).map
    (fun a => ⟨Side.sell, sellSize a.balance⟩)

/-- Order construction of `CoinbaseTrade.Buy`: the first `USD` account
supplies the balance; with no `USD` entry, `none` (unbound local). -/
def BuyOrder (accounts : List RawAccount) : Option OrderParams :=
  (accounts.find? (fun a => a.currency == "USD")).map
    (fun a => ⟨Side.buy, buyFunds a.balance⟩)

/-- The gateway's response to `POST /orders`. -/
structure OrderResponse where
  ok : Bool
  status_code : ℤ
  msg : String
  order_id : String
  deriving DecidableEq, Repr

/-- One fill record of the `GET /fills` response. -/
structure FillRec where
  trade_id : String
  fillPrice : String
  fillFee : String
  deriving DecidableEq, Repr

/-- The gateway's response to `GET /fills`. -/
structure FillsResponse where
  ok : Bool
  fills : List FillRec
  deriving DecidableEq, Repr

/-- The three report lines appended per fill. -/
def fillLines (f : FillRec) : List Line :=
  [Line.tradeId f.trade_id, Line.price f.fillPrice, Line.fee f.fillFee]

/-- The leading description line of a transaction report:
`'Buy BTC with $%s' % params['funds']` or `'Sell BTC of %s' % params['size']`. -/
def descLine (params : OrderParams) : Line :=
  match params.side with
  | .buy => Line.buyDesc params.amount
  | .sell => Line.sellDesc params.amount

/-- Function `CoinbaseTrade.Transaction`: on a non-ok order response, exactly one
`logging.error` report and return (no exception); on an ok response,
build `fill_info` (description, then per-fill lines only when the fills
response is ok) and emit one content block with the fresh account info
appended.  `none` models the unbound-local failure inside
`GetAccountInfo` on the success path. -/
def Transaction (params : OrderParams) (orderResp : OrderResponse)
    (fillsResp : FillsResponse) (accounts : List RawAccount) :
    Option (List Report) :=
  if orderResp.ok = false then
    some [Report.errorLog params.side orderResp.status_code orderResp.msg]
  else
    let fill_info := descLine params ::
      (if fillsResp.ok then (fillsResp.fills.map fillLines).flatten else [])
    (GetAccountInfo accounts).map
      (fun acc => [Report.contentBlock params.side.title (fill_info ++ acc)])

/-- The gateway state a cycle runs against: the successive `GetEMAs`
results the retry loop observes, and the responses to the account,
order and fills requests. -/
structure GatewayEnv where
  samples : ℕ → ℤ × ℚ × ℚ
  accounts : List RawAccount
  orderResp : OrderResponse
  fillsResp : FillsResponse

/-- Function `CoinbaseTrade.Sell`: fetch accounts, build the order, run the
transaction. -/
def Sell (env : GatewayEnv) : Option (List Report) :=
  match SellOrder env.accounts with
  | none => none
  | some p => Transaction p env.orderResp env.fillsResp env.accounts

/-- Function `CoinbaseTrade.Buy`: fetch accounts, build the order, run the
transaction. -/
def Buy (env : GatewayEnv) : Option (List Report) :=
  match BuyOrder env.accounts with
  | none => none
  | some p => Transaction p env.orderResp env.fillsResp env.accounts

/-- Function `CoinbaseTrade.Hold`: one content block with a hold notice and the
account info. -/
def Hold (env : GatewayEnv) : Option (List Report) :=
  (GetAccountInfo env.accounts).map
    (fun acc => [Report.contentBlock "HOLD" (Line.holdNotice :: acc)])

/-- The index at which the sampling retry loop of `CoinbaseTrade.Trade`
stops: the first fetch whose `last_time` differs from the previous
cycle's (`while new_time == last_time: sleep(1); refetch`). -/
def sampleIndex (env : GatewayEnv) (last_time : ℤ)
    (h : ∃ n, (env.samples n).1 ≠ last_time) : ℕ :=
  Nat.find h

/-- Function `CoinbaseTrade.Trade`: retry-sample until fresh, decide, dispatch to
`Sell` / `Buy` / `Hold`, and return the new `(time, ema12, ema26)`
triple.  The hypothesis `h` is the termination condition of the retry
loop (some fetch eventually returns a fresh candle); `none` models an
exception escaping the dispatched action. -/
def Trade (env : GatewayEnv) (last_time : ℤ) (last_ema12 last_ema26 : ℚ)
    (h : ∃ n, (env.samples n).1 ≠ last_time) :
    Option ((ℤ × ℚ × ℚ) × List Report) :=
  let s := env.samples (sampleIndex env last_time h)
  let action :=
    match decide ⟨last_time, last_ema12, last_ema26⟩ ⟨s.1, s.2.1, s.2.2⟩ with
    | Decision.SELL => Sell env
    | Decision.BUY => Buy env
    | Decision.HOLD => Hold env
  action.map (fun rs => (s, rs))

/-! ## The `Start` loop -/

/-- The observable outcome of one iteration of `Start`'s `while` loop:
the carried state afterwards, the backoff slept in the `except` handler,
whether `logging.exception` ran, and whether the process terminated. -/
structure StepResult where
  state : ℤ × ℚ × ℚ
  backoffSeconds : ℕ
  loggedException : Bool
  terminated : Bool
  deriving DecidableEq, Repr

/-- The `try/except` body of `Start`'s loop around the tuple assignment
`last_time, last_ema12, last_ema26 = self.Trade(...)`: on success the
carried state becomes `Trade`'s return value; if `Trade` raises
(`tradeResult = none`) the assignment never happens, the exception is
logged and the loop sleeps 60 seconds; the loop never exits. -/
def startIter (st : ℤ × ℚ × ℚ)
    (tradeResult : Option ((ℤ × ℚ × ℚ) × List Report)) : StepResult :=
  match tradeResult with
  | some (st2, _) => ⟨st2, 0, false, false⟩
  | none => ⟨st, 60, true, false⟩

/-- One full iteration of `Start`'s loop against a gateway state. -/
def startCycle (env : GatewayEnv) (st : ℤ × ℚ × ℚ)
    (h : ∃ n, (env.samples n).1 ≠ st.1) : StepResult :=
  startIter st (Trade env st.1 st.2.1 st.2.2 h)

/-! ## INIT adjustment in `CoinbaseTrade.Start` -/

/-- Lines 161–162 of `CoinbaseTrade.Start`:
`if time.time() - last_time < DATA_DELAY: last_time -= self.granularity`.
`now` is the wall clock `time.time()`. -/
def initLastTime (now : ℚ) (last_time : ℤ) (granularity : ℤ) : ℤ :=
  if now - last_time < DATA_DELAY then last_time - granularity else last_time

/-! ## Concrete gateway fixtures -/

/-- Fixture: constant fresh sample `(5, 1, 2)`, both accounts present,
order rejected with status 400. -/
def envRejected : GatewayEnv where
  samples := fun _ => (5, 1, 2)
  accounts := [⟨"BTC", 1⟩, ⟨"USD", 2⟩]
  orderResp := ⟨false, 400, "Insufficient funds", ""⟩
  fillsResp := ⟨true, []⟩

/-- Fixture: constant sample `(5, 1, 1)` and an empty account list, so
the dispatched `Buy` raises (no `USD` entry binds `funds`). -/
def envRaising : GatewayEnv where
  samples := fun _ => (5, 1, 1)
  accounts := []
  orderResp := ⟨false, 400, "err", ""⟩
  fillsResp := ⟨true, []⟩

/-- Fixture: the sample of fetch attempt `n` has timestamp `n`, so
against a previous `last_time = 0` the first fetch is stale and the
retry loop must take a later one. -/
def envDelayed : GatewayEnv where
  samples := fun n => ((n : ℤ), 1, 1)
  accounts := [⟨"USD", 3⟩, ⟨"BTC", 4⟩]
  orderResp := ⟨true, 200, "", "oid"⟩
  fillsResp := ⟨true, []⟩

/-! ## Helper lemmas -/

theorem ratFloor_eq_floor (q : ℚ) : ratFloor q = ⌊q⌋ := by
  rw [Rat.floor_def, ratFloor, Int.fdiv_eq_ediv _ (Int.natCast_nonneg q.den)]

theorem ratFloor_le (q : ℚ) : (ratFloor q : ℚ) ≤ q := by
  rw [ratFloor_eq_floor]
  exact Int.floor_le q

theorem lt_ratFloor_add_one (q : ℚ) : q < (ratFloor q : ℚ) + 1 := by
  rw [ratFloor_eq_floor]
  exact Int.lt_floor_add_one q

theorem roundHalfEven_intCast (z : ℤ) : roundHalfEven (z : ℚ) = z := by
  have h : ratFloor (z : ℚ) = z := by rw [ratFloor_eq_floor, Int.floor_intCast]
  rw [roundHalfEven, h]
  norm_num

theorem abs_roundHalfEven_sub_le (q : ℚ) :
    |(roundHalfEven q : ℚ) - q| ≤ 1 / 2 := by
  have h1 : (ratFloor q : ℚ) ≤ q := ratFloor_le q
  have h2 : q < (ratFloor q : ℚ) + 1 := lt_ratFloor_add_one q
  rw [roundHalfEven]
  split_ifs with ha hb hc <;>
    (rw [abs_le]; constructor <;> push_cast <;> linarith)

theorem buyFunds_eq_trunc (b : ℚ) : buyFunds b = pyInt (b * 100) := by
  rw [buyFunds, fmtScaled,
    show ((10 : ℚ) ^ 2) = 100 by norm_num,
    div_mul_cancel₀ _ (by norm_num : (100 : ℚ) ≠ 0),
    roundHalfEven_intCast]

/-! ## C5: order amounts -/

/-- C5 (counterexample): the claim says the sell `size` string is the
BTC balance truncated (toward zero) to 8 decimal places, but for the
balance `0.123456789` the code's `'%.8f'` formatting yields
`0.12345679` (rounded up), not the truncation `0.12345678`. -/
theorem sellSize_not_truncation :
    sellSize (123456789 / 1000000000 : ℚ) ≠
      pyInt ((123456789 / 1000000000 : ℚ) * 10 ^ 8) := by
  with_unfolding_all decide

/-- C5 (amended): the buy `funds` string is the entire first `USD`
balance truncated toward zero to 2 decimal places, while the sell
`size` string is the entire first `BTC` balance *rounded to nearest*
(printf `%.8f`, within half of one `10 ^ (-8)` unit), not truncated. -/
theorem order_amounts (accounts : List RawAccount) (u b : RawAccount)
    (hu : accounts.find? (fun a => a.currency == "USD") = some u)
    (hb : accounts.find? (fun a => a.currency == "BTC") = some b) :
    BuyOrder accounts = some ⟨Side.buy, pyInt (u.balance * 100)⟩ ∧
    SellOrder accounts = some ⟨Side.sell, roundHalfEven (b.balance * 10 ^ 8)⟩ ∧
    |(roundHalfEven (b.balance * 10 ^ 8) : ℚ) - b.balance * 10 ^ 8| ≤ 1 / 2 := by
  refine ⟨?_, ?_, abs_roundHalfEven_sub_le _⟩
  · rw [BuyOrder, hu, Option.map_some', buyFunds_eq_trunc]
  · rw [SellOrder, hb, Option.map_some']
    rfl

/-- C5 (witness for the amended claim), at the balances of the
repository's own test fixture (`100.129456` USD, `0.123456789` BTC). -/
theorem order_amounts_witness :
    ([RawAccount.mk "USD" (100129456 / 1000000), RawAccount.mk "BTC" (123456789 / 1000000000)].find?
        (fun a => a.currency == "USD") = some (RawAccount.mk "USD" (100129456 / 1000000)) ∧
     [RawAccount.mk "USD" (100129456 / 1000000), RawAccount.mk "BTC" (123456789 / 1000000000)].find?
        (fun a => a.currency == "BTC") = some (RawAccount.mk "BTC" (123456789 / 1000000000))) ∧
    (BuyOrder [RawAccount.mk "USD" (100129456 / 1000000), RawAccount.mk "BTC" (123456789 / 1000000000)] =
        some ⟨Side.buy, pyInt ((100129456 / 1000000 : ℚ) * 100)⟩ ∧
     SellOrder [RawAccount.mk "USD" (100129456 / 1000000), RawAccount.mk "BTC" (123456789 / 1000000000)] =
        some ⟨Side.sell, roundHalfEven ((123456789 / 1000000000 : ℚ) * 10 ^ 8)⟩ ∧
     |(roundHalfEven ((123456789 / 1000000000 : ℚ) * 10 ^ 8) : ℚ) -
        (123456789 / 1000000000 : ℚ) * 10 ^ 8| ≤ 1 / 2) :=
  ⟨⟨rfl, rfl⟩,
   order_amounts
     [RawAccount.mk "USD" (100129456 / 1000000), RawAccount.mk "BTC" (123456789 / 1000000000)]
     (RawAccount.mk "USD" (100129456 / 1000000)) (RawAccount.mk "BTC" (123456789 / 1000000000))
     rfl rfl⟩

/-! ## C8: the INIT freshness adjustment -/

/-- C8: at INIT, if the newest candle is younger than `DATA_DELAY`
(`now - last_time < 300`), the carried `last_time` is decreased by
exactly one granularity; otherwise it is kept unchanged. -/
theorem initLastTime_spec (now : ℚ) (last_time granularity : ℤ) :
    (now - last_time < DATA_DELAY →
      initLastTime now last_time granularity = last_time - granularity) ∧
    (DATA_DELAY ≤ now - last_time →
      initLastTime now last_time granularity = last_time) := by
  constructor
  · intro h
    simp only [initLastTime, if_pos h]
  · intro h
    simp only [initLastTime, if_neg (not_lt.mpr h)]

/-- C8 (witness): a candle of age 0 is too fresh, so with granularity
360 the carried time backs off to `-360`; a candle of age 300 is kept. -/
theorem initLastTime_spec_witness :
    ((0 : ℚ) - ((0 : ℤ) : ℚ) < DATA_DELAY ∧ initLastTime 0 0 360 = 0 - 360) ∧
    (DATA_DELAY ≤ (300 : ℚ) - ((0 : ℤ) : ℚ) ∧ initLastTime 300 0 360 = 0) :=
  ⟨⟨by with_unfolding_all decide,
    (initLastTime_spec 0 0 360).1 (by with_unfolding_all decide)⟩,
   ⟨by with_unfolding_all decide,
    (initLastTime_spec 300 0 360).2 (by with_unfolding_all decide)⟩⟩

/-! ## C1: the EMA recurrence -/

theorem EMA_concat (N : ℕ) (l : List ℚ) (c : ℚ) (hl : l ≠ []) :
    EMA N (l ++ [c]) = (EMA N l).map (fun r => emaStep (2 / (N + 1)) r c) := by
  cases l with
  | nil => exact absurd rfl hl
  | cons p rest => simp [EMA, List.foldl_append]

theorem EMA_range_map (N : ℕ) (close : ℕ → ℚ) :
    ∀ n : ℕ, EMA N ((List.range (n + 1)).map close) = some (emaClosedForm N close n)
  | 0 => by simp [List.range_succ, EMA, emaClosedForm]
  | n + 1 => by
    rw [List.range_succ, List.map_append, List.map_singleton,
      EMA_concat _ _ _ (by simp), EMA_range_map N close n]
    simp [emaStep, emaClosedForm]

theorem list_eq_range_map (l : List ℚ) :
    l = (List.range l.length).map (fun i => l.getD i 0) := by
  induction l with
  | nil => rfl
  | cons a t ih =>
    rw [List.length_cons, List.range_succ_eq_map, List.map_cons, List.map_map]
    simp only [Function.comp_def, List.getD_cons_zero, List.getD_cons_succ]
    exact congrArg (List.cons a) ih

/-- C1: for every non-empty price list and period `N`, the EMA computed
by `GetEMAs`'s inner `EMA` equals the closed-form recurrence
`ema[0] = close[0]`, `ema[i] = close[i]*k + ema[i-1]*(1-k)` with
`k = 2/(N+1)`, seeded with the first closing price; and the function is
deterministic (identical input gives the identical result). -/
theorem ema_matches_recurrence (N : ℕ) (prices : List ℚ) (h : prices ≠ []) :
    EMA N prices =
      some (emaClosedForm N (fun i => prices.getD i 0) (prices.length - 1)) ∧
    ∀ prices2, prices2 = prices → EMA N prices2 = EMA N prices := by
  refine ⟨?_, fun prices2 h2 => by rw [h2]⟩
  obtain ⟨n, hn⟩ : ∃ n, prices.length = n + 1 :=
    ⟨prices.length - 1, (Nat.succ_pred_eq_of_pos (List.length_pos.mpr h)).symm⟩
  have hrw := list_eq_range_map prices
  rw [hn] at hrw
  conv_lhs => rw [hrw]
  rw [EMA_range_map, hn]
  simp

/-- C1 (witness): the recurrence equation at the two-element price list
`[1, 2]` with period 1. -/
theorem ema_matches_recurrence_witness :
    ([(1 : ℚ), 2] ≠ []) ∧
    (EMA 1 [(1 : ℚ), 2] =
      some (emaClosedForm 1 (fun i => [(1 : ℚ), 2].getD i 0) ([(1 : ℚ), 2].length - 1)) ∧
     ∀ prices2, prices2 = [(1 : ℚ), 2] → EMA 1 prices2 = EMA 1 [(1 : ℚ), 2]) :=
  ⟨by simp, ema_matches_recurrence 1 [1, 2] (by simp)⟩

/-! ## C2: the crossover rule -/

/-- C2: with `d_prev = prev.slow_ema - prev.fast_ema` and
`d_curr = curr.slow_ema - curr.fast_ema`, a crossover is declared
exactly when `d_prev * d_curr ≤ 0` (zero differences included, never
HOLD); on crossover the decision is SELL if `curr.slow_ema >
curr.fast_ema` and BUY otherwise; with no crossover it is HOLD. -/
theorem crossover_rule (prev curr : SignalState) :
    (decide prev curr =
      if (prev.slow_ema - prev.fast_ema) * (curr.slow_ema - curr.fast_ema) ≤ 0 then
        (if curr.slow_ema > curr.fast_ema then Decision.SELL else Decision.BUY)
      else Decision.HOLD) ∧
    ((prev.slow_ema - prev.fast_ema = 0 ∨ curr.slow_ema - curr.fast_ema = 0) →
      decide prev curr ≠ Decision.HOLD) := by
  constructor
  · rw [mul_comm (prev.slow_ema - prev.fast_ema) (curr.slow_ema - curr.fast_ema)]
    rfl
  · intro h0
    have hprod :
        (curr.slow_ema - curr.fast_ema) * (prev.slow_ema - prev.fast_ema) ≤ 0 := by
      rcases h0 with h0 | h0 <;> rw [h0] <;> simp
    simp only [decide, if_pos hprod]
    split <;> simp

/-- C2 (witness): a boundary state with `d_prev = 0` yields BUY, not
HOLD. -/
theorem crossover_rule_witness :
    ((SignalState.mk 0 1 1).slow_ema - (SignalState.mk 0 1 1).fast_ema = 0 ∨
     (SignalState.mk 1 2 1).slow_ema - (SignalState.mk 1 2 1).fast_ema = 0) ∧
    decide (SignalState.mk 0 1 1) (SignalState.mk 1 2 1) ≠ Decision.HOLD :=
  ⟨Or.inl (sub_self 1), (crossover_rule _ _).2 (Or.inl (sub_self 1))⟩

/-! ## C6: empty and non-empty candle histories -/

/-- C6: on an empty candle sequence `GetEMAs` fails fast (the
data-insufficiency failure that propagates to the loop's backoff); on
every non-empty history it succeeds, returning the final EMA values of
the ascending (reversed) closing-price sequence together with the
timestamp of the newest candle. -/
theorem getEMAs_spec :
    GetEMAs [] = none ∧
    ∀ history : List Candle, history ≠ [] →
      ∃ newest e12 e26,
        history.reverse.getLast? = some newest ∧
        EMA 12 (history.reverse.map Candle.close) = some e12 ∧
        EMA 26 (history.reverse.map Candle.close) = some e26 ∧
        GetEMAs history = some (newest.time, e12, e26) := by
  refine ⟨rfl, ?_⟩
  intro hist hne
  have hrev : hist.reverse ≠ [] := by simpa using hne
  obtain ⟨p, rest, hpr⟩ := List.exists_cons_of_ne_nil hrev
  have hnewest := List.getLast?_eq_getLast_of_ne_nil hrev
  obtain ⟨v12, h12⟩ : ∃ v, EMA 12 (hist.reverse.map Candle.close) = some v := by
    rw [hpr]
    exact ⟨_, rfl⟩
  obtain ⟨v26, h26⟩ : ∃ v, EMA 26 (hist.reverse.map Candle.close) = some v := by
    rw [hpr]
    exact ⟨_, rfl⟩
  refine ⟨hist.reverse.getLast hrev, v12, v26, hnewest, h12, h26, ?_⟩
  simp only [GetEMAs, hnewest, h12, h26]

/-- C6 (witness): a one-candle history (timestamp 100, close 5)
succeeds. -/
theorem getEMAs_spec_witness :
    ([Candle.mk 100 0 0 0 5 0] ≠ []) ∧
    ∃ newest e12 e26,
      [Candle.mk 100 0 0 0 5 0].reverse.getLast? = some newest ∧
      EMA 12 ([Candle.mk 100 0 0 0 5 0].reverse.map Candle.close) = some e12 ∧
      EMA 26 ([Candle.mk 100 0 0 0 5 0].reverse.map Candle.close) = some e26 ∧
      GetEMAs [Candle.mk 100 0 0 0 5 0] = some (newest.time, e12, e26) :=
  ⟨by simp, getEMAs_spec.2 [Candle.mk 100 0 0 0 5 0] (by simp)⟩

/-! ## C7: no stale sample is ever evaluated -/

/-- C7: the sampling retry loop of `Trade` stops at the first fetch
whose timestamp differs from the previous cycle's `last_time` (all
earlier fetches returned the stale timestamp), so the triple `Trade`
returns always carries a `last_time` different from its input. -/
theorem fresh_sample (env : GatewayEnv) (last_time : ℤ) (last12 last26 : ℚ)
    (h : ∃ n, (env.samples n).1 ≠ last_time) :
    (env.samples (sampleIndex env last_time h)).1 ≠ last_time ∧
    (∀ m, m < sampleIndex env last_time h → (env.samples m).1 = last_time) ∧
    (∀ st reports, Trade env last_time last12 last26 h = some (st, reports) →
      st.1 ≠ last_time) := by
  refine ⟨Nat.find_spec h, ?_, ?_⟩
  · intro m hm
    exact not_not.mp (Nat.find_min h hm)
  · intro st reports htr
    simp only [Trade] at htr
    obtain ⟨rs, hrs, heq⟩ := Option.map_eq_some'.mp htr
    obtain ⟨h1, h2⟩ := Prod.mk.injEq _ _ _ _ |>.mp heq
    rw [← h1]
    exact Nat.find_spec h

/-- C7 (witness): against `envDelayed` (fetch `n` returns timestamp
`n`) and previous `last_time = 0`, the first fetch is stale and the
loop settles on a later, distinct timestamp. -/
theorem fresh_sample_witness :
    (envDelayed.samples 1).1 ≠ (0 : ℤ) ∧
    ((envDelayed.samples (sampleIndex envDelayed 0 ⟨1, by decide⟩)).1 ≠ 0 ∧
     (∀ m, m < sampleIndex envDelayed 0 ⟨1, by decide⟩ →
        (envDelayed.samples m).1 = 0) ∧
     (∀ st reports, Trade envDelayed 0 1 1 ⟨1, by decide⟩ = some (st, reports) →
        st.1 ≠ 0)) :=
  ⟨by decide, fresh_sample envDelayed 0 1 1 ⟨1, by decide⟩⟩

/-! ## C3: a rejected order never aborts the cycle -/

/-- C3: when the order response is not ok, the reached `Transaction`
raises nothing and emits exactly one error report, and the `Trade`
cycle still completes, returning the newly sampled
`(last_time, fast_ema, slow_ema)` triple as the next carried state. -/
theorem rejected_order_cycle (env : GatewayEnv) (last_time : ℤ)
    (last12 last26 : ℚ) (h : ∃ n, (env.samples n).1 ≠ last_time)
    (hok : env.orderResp.ok = false)
    (hbtc : (env.accounts.find? (fun a => a.currency == "BTC")).isSome)
    (husd : (env.accounts.find? (fun a => a.currency == "USD")).isSome)
    (hcross : decide (SignalState.mk last_time last12 last26)
      (SignalState.mk (env.samples (sampleIndex env last_time h)).1
        (env.samples (sampleIndex env last_time h)).2.1
        (env.samples (sampleIndex env last_time h)).2.2) ≠ Decision.HOLD) :
    ∃ side,
      Trade env last_time last12 last26 h =
        some (env.samples (sampleIndex env last_time h),
          [Report.errorLog side env.orderResp.status_code env.orderResp.msg]) := by
  obtain ⟨bAcc, hb⟩ := Option.isSome_iff_exists.mp hbtc
  obtain ⟨uAcc, hu⟩ := Option.isSome_iff_exists.mp husd
  have hsell : Sell env =
      some [Report.errorLog Side.sell env.orderResp.status_code env.orderResp.msg] := by
    simp only [Sell, SellOrder, hb, Option.map_some', Transaction, hok, if_true]
  have hbuy : Buy env =
      some [Report.errorLog Side.buy env.orderResp.status_code env.orderResp.msg] := by
    simp only [Buy, BuyOrder, hu, Option.map_some', Transaction, hok, if_true]
  simp only [Trade]
  cases hdec : decide (SignalState.mk last_time last12 last26)
      (SignalState.mk (env.samples (sampleIndex env last_time h)).1
        (env.samples (sampleIndex env last_time h)).2.1
        (env.samples (sampleIndex env last_time h)).2.2) with
  | BUY => exact ⟨Side.buy, by rw [hbuy]; rfl⟩
  | SELL => exact ⟨Side.sell, by rw [hsell]; rfl⟩
  | HOLD => exact absurd hdec hcross

/-- C3 (witness): against `envRejected` (order rejected with status
400) and the boundary previous state `(0, 1, 1)`, the cycle completes
with exactly one error report and the fresh sample as new state. -/
theorem rejected_order_cycle_witness :
    (envRejected.orderResp.ok = false ∧
     (envRejected.accounts.find? (fun a => a.currency == "BTC")).isSome ∧
     (envRejected.accounts.find? (fun a => a.currency == "USD")).isSome) ∧
    ∃ side,
      Trade envRejected 0 1 1 ⟨0, by decide⟩ =
        some (envRejected.samples (sampleIndex envRejected 0 ⟨0, by decide⟩),
          [Report.errorLog side envRejected.orderResp.status_code
            envRejected.orderResp.msg]) :=
  ⟨⟨rfl, rfl, rfl⟩,
   rejected_order_cycle envRejected 0 1 1 ⟨0, by decide⟩ rfl rfl rfl
     (by with_unfolding_all decide)⟩

/-! ## C4: the top-level exception handler -/

/-- C4: if anything raised inside a `Trade` cycle escapes it, the
loop's handler catches it, logs it, sleeps the fixed 60-second backoff,
does not terminate, and re-enters the next cycle with the previous
carried state exactly as it was — no partial progress is committed. -/
theorem error_backoff (env : GatewayEnv) (st : ℤ × ℚ × ℚ)
    (h : ∃ n, (env.samples n).1 ≠ st.1)
    (hexn : Trade env st.1 st.2.1 st.2.2 h = none) :
    startCycle env st h = StepResult.mk st 60 true false := by
  simp only [startCycle, hexn, startIter]

/-- C4 (witness): against `envRaising` (no accounts, so the dispatched
`Buy` raises), the iteration keeps the state `(0, 1, 1)`, sleeps 60
seconds, logs, and does not terminate. -/
theorem error_backoff_witness :
    Trade envRaising ((0, 1, 1) : ℤ × ℚ × ℚ).1 ((0, 1, 1) : ℤ × ℚ × ℚ).2.1
      ((0, 1, 1) : ℤ × ℚ × ℚ).2.2 ⟨0, by decide⟩ = none ∧
    startCycle envRaising ((0, 1, 1) : ℤ × ℚ × ℚ) ⟨0, by decide⟩ =
      StepResult.mk ((0, 1, 1) : ℤ × ℚ × ℚ) 60 true false :=
  ⟨by with_unfolding_all decide,
   error_backoff envRaising ((0, 1, 1) : ℤ × ℚ × ℚ) ⟨0, by decide⟩
     (by with_unfolding_all decide)⟩

/-! ## C9: both currencies must be present -/

/-- C9: `GetAccountInfo` only returns a snapshot when the account list
has both a `USD` and a `BTC` entry; with either missing it fails with
an unhandled name-binding error (modelled by `none`) instead of a
snapshot or classified error.  Likewise `Sell` needs a `BTC` entry and
`Buy` a `USD` entry to bind their amount. -/
theorem account_lookup_requires_both :
    (∀ accounts : List RawAccount,
      ((∀ a ∈ accounts, a.currency ≠ "USD") ∨ (∀ a ∈ accounts, a.currency ≠ "BTC")) →
        GetAccountInfo accounts = none) ∧
    (∀ accounts : List RawAccount,
      (∃ a ∈ accounts, a.currency = "USD") → (∃ a ∈ accounts, a.currency = "BTC") →
        (GetAccountInfo accounts).isSome) ∧
    (∀ accounts : List RawAccount, (∀ a ∈ accounts, a.currency ≠ "BTC") →
      SellOrder accounts = none) ∧
    (∀ accounts : List RawAccount, (∀ a ∈ accounts, a.currency ≠ "USD") →
      BuyOrder accounts = none) := by
  refine ⟨?_, ?_, ?_, ?_⟩
  · intro accounts hmiss
    rcases hmiss with hm | hm
    · have hfil : accounts.filter (fun a => a.currency == "USD") = [] :=
        List.filter_eq_nil_iff.mpr (fun a ha => by simpa using hm a ha)
      simp [GetAccountInfo, hfil]
    · have hfil : accounts.filter (fun a => a.currency == "BTC") = [] :=
        List.filter_eq_nil_iff.mpr (fun a ha => by simpa using hm a ha)
      cases hgl : (accounts.filter (fun a => a.currency == "USD")).getLast? with
      | none => simp [GetAccountInfo, hfil, hgl]
      | some u => simp [GetAccountInfo, hfil, hgl]
  · intro accounts hU hB
    have h1 : accounts.filter (fun a => a.currency == "USD") ≠ [] := by
      obtain ⟨a, ha, hc⟩ := hU
      intro hnil
      have := List.filter_eq_nil_iff.mp hnil a ha
      simp [hc] at this
    have h2 : accounts.filter (fun a => a.currency == "BTC") ≠ [] := by
      obtain ⟨a, ha, hc⟩ := hB
      intro hnil
      have := List.filter_eq_nil_iff.mp hnil a ha
      simp [hc] at this
    obtain ⟨u, hu⟩ := Option.isSome_iff_exists.mp (List.getLast?_isSome.mpr h1)
    obtain ⟨b, hb⟩ := Option.isSome_iff_exists.mp (List.getLast?_isSome.mpr h2)
    simp [GetAccountInfo, hu, hb]
  · intro accounts hm
    have hfind : accounts.find? (fun a => a.currency == "BTC") = none :=
      List.find?_eq_none.mpr (fun a ha => by simpa using hm a ha)
    simp [SellOrder, hfind]
  · intro accounts hm
    have hfind : accounts.find? (fun a => a.currency == "USD") = none :=
      List.find?_eq_none.mpr (fun a ha => by simpa using hm a ha)
    simp [BuyOrder, hfind]

/-- C9 (witness): a list holding only a `USD` account makes
`GetAccountInfo` and `SellOrder` fail, and the reverse list with only
`BTC` makes `BuyOrder` fail; with both entries the snapshot exists. -/
theorem account_lookup_requires_both_witness :
    GetAccountInfo [RawAccount.mk "USD" 7] = none ∧
    SellOrder [RawAccount.mk "USD" 7] = none ∧
    BuyOrder [RawAccount.mk "BTC" 8] = none ∧
    (GetAccountInfo [RawAccount.mk "USD" 7, RawAccount.mk "BTC" 8]).isSome :=
  ⟨account_lookup_requires_both.1 [RawAccount.mk "USD" 7]
     (Or.inr (by simp)),
   account_lookup_requires_both.2.2.1 [RawAccount.mk "USD" 7] (by simp),
   account_lookup_requires_both.2.2.2 [RawAccount.mk "BTC" 8] (by simp),
   account_lookup_requires_both.2.1 [RawAccount.mk "USD" 7, RawAccount.mk "BTC" 8]
     ⟨RawAccount.mk "USD" 7, by simp⟩ ⟨RawAccount.mk "BTC" 8, by simp⟩⟩

/-! ## C10: accepted order, failed fills fetch -/

/-- C10: for an accepted order whose fills fetch fails, `Transaction`
emits exactly one success report: the order description followed by the
post-trade account snapshot, with no trade id, price or fee lines; the
fills failure is neither raised nor separately reported. -/
theorem accepted_order_fills_failure (params : OrderParams)
    (orderResp : OrderResponse) (fillsResp : FillsResponse)
    (accounts : List RawAccount)
    (hok : orderResp.ok = true) (hfills : fillsResp.ok = false)
    (hacc : (GetAccountInfo accounts).isSome) :
    ∃ u b,
      GetAccountInfo accounts = some [Line.usdBalance u, Line.btcBalance b] ∧
      Transaction params orderResp fillsResp accounts =
        some [Report.contentBlock params.side.title
          [descLine params, Line.usdBalance u, Line.btcBalance b]] := by
  cases hgu : (accounts.filter (fun a => a.currency == "USD")).getLast? with
  | none => simp [GetAccountInfo, hgu] at hacc
  | some u =>
    cases hgb : (accounts.filter (fun a => a.currency == "BTC")).getLast? with
    | none => simp [GetAccountInfo, hgu, hgb] at hacc
    | some b =>
      refine ⟨fmtScaled 2 u.balance, fmtScaled 8 b.balance, ?_, ?_⟩
      · simp [GetAccountInfo, hgu, hgb]
      · simp [Transaction, hok, hfills, GetAccountInfo, hgu, hgb]

/-- C10 (witness): a sell accepted with status 200 whose fills fetch
fails (despite the gateway holding a fill record) reports only the
description and the snapshot. -/
theorem accepted_order_fills_failure_witness :
    ((OrderResponse.mk true 200 "" "oid").ok = true ∧
     (FillsResponse.mk false [FillRec.mk "T1" "30000" "0.1"]).ok = false ∧
     (GetAccountInfo [RawAccount.mk "USD" 1, RawAccount.mk "BTC" 2]).isSome) ∧
    ∃ u b,
      GetAccountInfo [RawAccount.mk "USD" 1, RawAccount.mk "BTC" 2] =
        some [Line.usdBalance u, Line.btcBalance b] ∧
      Transaction (OrderParams.mk Side.sell 5) (OrderResponse.mk true 200 "" "oid")
          (FillsResponse.mk false [FillRec.mk "T1" "30000" "0.1"])
          [RawAccount.mk "USD" 1, RawAccount.mk "BTC" 2] =
        some [Report.contentBlock (OrderParams.mk Side.sell 5).side.title
          [descLine (OrderParams.mk Side.sell 5), Line.usdBalance u, Line.btcBalance b]] :=
  ⟨⟨rfl, rfl, rfl⟩,
   accepted_order_fills_failure (OrderParams.mk Side.sell 5)
     (OrderResponse.mk true 200 "" "oid")
     (FillsResponse.mk false [FillRec.mk "T1" "30000" "0.1"])
     [RawAccount.mk "USD" 1, RawAccount.mk "BTC" 2] rfl rfl rfl⟩

end BTCAutoTrader
